import Mathlib

/-!
Shallow embedding of the retro-compositor audio-analysis pipeline and cut
decision engine (src/audio/analyzer.rs, src/audio/types.rs,
src/composition/engine.rs, src/config.rs), with theorems settling the frozen
claims about the specification.

Modelling conventions:
* Rust `f32`/`f64` values are embedded as `ℚ` (exact arithmetic on the
  decimal constants appearing in the source); `usize`/`u32` as `ℕ`.
* Rust's stable `sort_by` on a totally ordered key is modelled by insertion
  sort, which computes the same (unique) stable permutation.
* The FFT itself is floating-point numeric code with no exact semantics; the
  spectral-flux curve it produces is therefore abstracted as an input list
  where onset peak picking is modelled, and the framing (windowing / hop)
  stage is modelled separately over raw sample lists.
-/

namespace Retro

/-- Number of one bits in the binary representation of the second argument,
computed with explicit fuel (the first argument) so that the definition is
structurally recursive and kernel-evaluable; `fuel ≥ n` suffices. -/
def countOnesAux : ℕ → ℕ → ℕ
  | 0, _ => 0
  | _ + 1, 0 => 0
  | fuel + 1, n + 1 => (n + 1) % 2 + countOnesAux fuel ((n + 1) / 2)

/-- Rust `usize::is_power_of_two`, i.e. `count_ones() == 1`. -/
def isPowerOfTwo (n : ℕ) : Bool := countOnesAux n n == 1

/-- `AnalysisConfig` from src/audio/types.rs. -/
structure AnalysisConfig where
  windowSize : ℕ
  hopSize : ℕ
  minBpm : ℚ
  maxBpm : ℚ
  beatSensitivity : ℚ
  energyWindowSize : ℚ
  detectPhrases : Bool
  calculateSpectralFeatures : Bool

/-- `AnalysisConfig::validate` from src/audio/types.rs: the four sequential
checks, each returning the source's error string. -/
def AnalysisConfig.validate (c : AnalysisConfig) : Except String Unit :=
  if c.windowSize = 0 ∨ ¬ (isPowerOfTwo c.windowSize = true) then
    .error "Window size must be a power of two"
  else if c.hopSize > c.windowSize then
    .error "Hop size cannot be larger than window size"
  else if c.minBpm ≥ c.maxBpm then
    .error "Minimum BPM must be less than maximum BPM"
  else if ¬ (0 ≤ c.beatSensitivity ∧ c.beatSensitivity ≤ 1) then
    .error "Beat sensitivity must be between 0.0 and 1.0"
  else .ok ()

/-- `BeatType` from src/audio/types.rs. -/
inductive BeatType
  | downbeat
  | beat
  | offbeat
  | onset
deriving DecidableEq

/-- `Beat` from src/audio/types.rs. -/
structure Beat where
  time : ℚ
  strength : ℚ
  beatType : BeatType
  onsetValue : ℚ
  localEnergy : ℚ
deriving DecidableEq

/-- `EnergyLevel` from src/audio/types.rs. -/
structure EnergyLevel where
  time : ℚ
  rms : ℚ
  peak : ℚ
  spectralCentroid : ℚ
  zeroCrossingRate : ℚ
deriving DecidableEq

/-- `TimeSignature` from src/audio/types.rs. -/
structure TimeSignature where
  beatsPerMeasure : ℕ
  beatNoteValue : ℕ
deriving DecidableEq

/-- `TimeSignature::default` (4/4). -/
def TimeSignature.default : TimeSignature := ⟨4, 4⟩

/-- `TempoChange` from src/audio/types.rs. -/
structure TempoChange where
  time : ℚ
  bpm : ℚ
  confidence : ℚ
deriving DecidableEq

/-- `TempoMap` from src/audio/types.rs. -/
structure TempoMap where
  globalBpm : ℚ
  confidence : ℚ
  tempoChanges : List TempoChange
  timeSignature : TimeSignature
deriving DecidableEq

/-- `AudioAnalysis` from src/audio/types.rs, restricted to the fields the cut
decision engine reads (`beats`, `energy_levels`, `duration`); the remaining
aggregate fields (tempo echo, config echo, phrases, spectral features) are
read by no code any claim concerns. -/
structure AudioAnalysis where
  beats : List Beat
  energyLevels : List EnergyLevel
  duration : ℚ
deriving DecidableEq

/-- `AudioAnalysis::average_energy_in_range` from src/audio/types.rs. -/
def AudioAnalysis.averageEnergyInRange (a : AudioAnalysis) (start stop : ℚ) : ℚ :=
  let relevantEnergies :=
    (a.energyLevels.filter (fun e => start ≤ e.time ∧ e.time ≤ stop)).map (fun e => e.rms)
  if relevantEnergies.isEmpty then 0
  else relevantEnergies.sum / (relevantEnergies.length : ℚ)

/-- `CompositionConfig` from src/config.rs. -/
structure CompositionConfig where
  beatSyncStrength : ℚ
  phraseAwareCuts : Bool
  minCutInterval : ℚ
  maxCutInterval : ℚ
  energyBasedCuts : Bool
  crossfadeDuration : ℚ
deriving DecidableEq

/-- `CompositionEngine::should_cut_at_beat` from src/composition/engine.rs:
force-cut past `max_cut_interval`, suppress below `min_cut_interval`,
otherwise accumulate `0.4·strength + 0.3·local_energy + 0.2·[downbeat]
+ 0.1·time_factor`, scale by `beat_sync_strength`, and cut iff `≥ 0.6`. -/
def shouldCutAtBeat (config : CompositionConfig) (beat : Beat)
    (timeSinceLastCut : ℚ) (audioAnalysis : AudioAnalysis) : Bool :=
  if timeSinceLastCut ≥ config.maxCutInterval then true
  else if timeSinceLastCut < config.minCutInterval then false
  else
    let cutProbability1 := (0 : ℚ) + beat.strength * (4/10)
    let localEnergy :=
      audioAnalysis.averageEnergyInRange (beat.time - 1/2) (beat.time + 1/2)
    let cutProbability2 := cutProbability1 + localEnergy * (3/10)
    let cutProbability3 :=
      if beat.beatType = BeatType.downbeat then cutProbability2 + 2/10
      else cutProbability2
    let timeFactor :=
      min ((timeSinceLastCut - config.minCutInterval) /
        (config.maxCutInterval - config.minCutInterval)) 1
    let cutProbability4 := cutProbability3 + timeFactor * (1/10)
    let cutProbability5 := cutProbability4 * config.beatSyncStrength
    cutProbability5 ≥ 6/10

/-- `(a..=b).cycle().nth(k)` for an inclusive `u32` range: `none` when the
range is empty (matching `Iterator::nth` on an empty cycle never returning),
otherwise the `k`-th element of the endlessly repeated range. -/
def rangeCycleNth (a b k : ℕ) : Option ℕ :=
  if a ≤ b then some (a + k % (b - a + 1)) else none

/-- `CompositionEngine::select_next_clip` from src/composition/engine.rs:
round-robin successor, overridden for high local energy (prefer the later
half of the clip pool) or low local energy (prefer the earlier half). -/
def selectNextClip (currentClip numClips : ℕ) (beat : Beat)
    (audioAnalysis : AudioAnalysis) : ℕ :=
  let nextClip := currentClip % numClips + 1
  let energy := audioAnalysis.averageEnergyInRange (beat.time - 1) (beat.time + 1)
  if energy > 7/10 ∧ numClips > 2 then
    (rangeCycleNth ((numClips + 1) / 2) numClips (currentClip % 3)).getD nextClip
  else if energy < 3/10 ∧ numClips > 1 then
    (rangeCycleNth 1 (max (numClips / 2) 1) (currentClip % 2)).getD nextClip
  else nextClip

/-- `CompositionTimeline` from src/composition/engine.rs. -/
structure CompositionTimeline where
  cuts : List ℚ
  clipAssignments : List ℕ
deriving DecidableEq

/-- `CompositionTimeline::new`. -/
def CompositionTimeline.new : CompositionTimeline := ⟨[], []⟩

/-- `CompositionTimeline::add_cut`: unconditional append. -/
def CompositionTimeline.addCut (t : CompositionTimeline) (time : ℚ) (clipId : ℕ) :
    CompositionTimeline :=
  ⟨t.cuts ++ [time], t.clipAssignments ++ [clipId]⟩

/-- `CompositionTimeline::sort_cuts`: stable sort of the `(time, clip)` pairs
by time. Rust's `Vec::sort_by` is a stable sort; stable sorts with the same
total comparator compute the same list, so insertion sort models it exactly. -/
def CompositionTimeline.sortCuts (t : CompositionTimeline) : CompositionTimeline :=
  let paired := List.insertionSort (fun a b => a.1 ≤ b.1) (t.cuts.zip t.clipAssignments)
  ⟨paired.map Prod.fst, paired.map Prod.snd⟩

/-- The per-beat loop state of `generate_timeline`: the timeline under
construction, `current_clip`, and `last_cut_time`. -/
structure SweepState where
  timeline : CompositionTimeline
  currentClip : ℕ
  lastCutTime : ℚ
deriving DecidableEq

/-- One iteration of the beat loop in `generate_timeline`
(src/composition/engine.rs): cut and rotate the clip when
`should_cut_at_beat` fires, otherwise leave the state unchanged. -/
def sweepStep (config : CompositionConfig) (audioAnalysis : AudioAnalysis)
    (numClips : ℕ) (st : SweepState) (beat : Beat) : SweepState :=
  let timeSinceLastCut := beat.time - st.lastCutTime
  if shouldCutAtBeat config beat timeSinceLastCut audioAnalysis then
    let nextClip := selectNextClip st.currentClip numClips beat audioAnalysis
    ⟨st.timeline.addCut beat.time nextClip, nextClip, beat.time⟩
  else st

/-- The beat sweep of `generate_timeline` before `ensure_minimum_coverage`:
start with the forced cut `(0.0, 1)`, `current_clip = 1`,
`last_cut_time = 0.0`, then fold the beats. -/
def beatSweep (config : CompositionConfig) (audioAnalysis : AudioAnalysis)
    (numClips : ℕ) : SweepState :=
  audioAnalysis.beats.foldl (sweepStep config audioAnalysis numClips)
    ⟨CompositionTimeline.new.addCut 0 1, 1, 0⟩

/-- The body of the injection loop of
`CompositionEngine::ensure_minimum_coverage` (src/composition/engine.rs):
inject a cut at `i·duration/segments_needed` unless within 2 s of a cut
already present (earlier-injected ones included), assigning clip
`((i-1) mod numClips) + 1`. -/
def coverageStep (duration : ℚ) (numClips segmentsNeeded : ℕ)
    (tl : CompositionTimeline) (i : ℕ) : CompositionTimeline :=
  let cutTime := (i : ℚ) * duration / (segmentsNeeded : ℚ)
  if tl.cuts.any (fun t => |t - cutTime| < 2) then tl
  else tl.addCut cutTime ((i - 1) % numClips + 1)

/-- `CompositionEngine::ensure_minimum_coverage`, assembled from
`coverageStep` over `i = 1 .. segments_needed - 1` followed by the sort. -/
def ensureMinimumCoverage (timeline : CompositionTimeline) (duration : ℚ)
    (numClips : ℕ) : CompositionTimeline :=
  if timeline.cuts.length < 3 ∧ duration > 10 then
    let segmentsNeeded := (⌈duration / 8⌉).toNat
    ((List.range' 1 (segmentsNeeded - 1)).foldl
      (coverageStep duration numClips segmentsNeeded) timeline).sortCuts
  else timeline

/-- `CompositionEngine::generate_timeline` from src/composition/engine.rs.
The video sequence enters only through its length, passed as `numClips`
(`video_sequence.is_empty()` iff `numClips = 0`). -/
def generateTimeline (config : CompositionConfig) (audioAnalysis : AudioAnalysis)
    (numClips : ℕ) : Except String CompositionTimeline :=
  if numClips = 0 then .error "No video clips available"
  else
    .ok (ensureMinimumCoverage (beatSweep config audioAnalysis numClips).timeline
      audioAnalysis.duration numClips)

/-- One iteration of the frame loop of `AudioAnalyzer::detect_onsets`
(src/audio/analyzer.rs), restricted to the peak-picking logic: the
accumulator carries the `spectral_flux` prefix pushed so far and the onsets
list; the flux value of the current frame is the input (the FFT magnitudes
it is computed from are abstracted away). The guard, window bounds, local
max/mean, and threshold are transcribed exactly — in particular the guard
compares `frame_idx` against `spectral_flux.len() - 3` where
`spectral_flux` is the *growing* vector (length `frame_idx + 1`). -/
def adaptiveOnsetStep (sensitivity : ℚ) (hopSize sampleRate : ℕ)
    (acc : List ℚ × List ℚ) (fluxVal : ℚ) : List ℚ × List ℚ :=
  let frameIdx := acc.1.length
  let spectralFlux := acc.1 ++ [fluxVal]
  let time := ((frameIdx * hopSize : ℕ) : ℚ) / (sampleRate : ℚ)
  let onsets :=
    if frameIdx > 3 ∧ frameIdx < spectralFlux.length - 3 then
      let windowStart := frameIdx - 3
      let windowEnd := min (frameIdx + 3) spectralFlux.length
      let window := (spectralFlux.drop windowStart).take (windowEnd - windowStart)
      let localMax := window.foldl max 0
      let localMean := window.sum / ((windowEnd - windowStart : ℕ) : ℚ)
      let threshold := localMean + sensitivity * (localMax - localMean) * (1/2)
      if fluxVal ≥ threshold ∧ fluxVal = localMax ∧ fluxVal > localMean * (3/2) then
        acc.2 ++ [time]
      else acc.2
    else acc.2
  (spectralFlux, onsets)

/-- The onsets produced by the adaptive peak-picking loop of
`detect_onsets`, as a function of the spectral-flux curve. -/
def adaptiveOnsets (sensitivity : ℚ) (hopSize sampleRate : ℕ)
    (flux : List ℚ) : List ℚ :=
  (flux.foldl (adaptiveOnsetStep sensitivity hopSize sampleRate) ([], [])).2

/-- Rust `Iterator::step_by(hop)`: every `hop`-th element starting with the
first (`hop ≥ 1`; `step_by(0)` panics and is never reached in the source). -/
def stepBy {α : Type} (hop : ℕ) : List α → List α
  | [] => []
  | x :: xs => x :: stepBy hop (xs.drop (hop - 1))
termination_by l => l.length
decreasing_by simp; omega

/-- Rust `slice::windows(w)` for `w ≥ 1`: all contiguous subslices of length
exactly `w`, in order; none when the slice is shorter than `w`. -/
def slidingWindows {α : Type} (w : ℕ) (xs : List α) : List (List α) :=
  (List.range (xs.length + 1 - w)).map fun i => (xs.drop i).take w

/-- The frame inputs consumed by `detect_onsets`
(`samples.windows(window_size).step_by(hop_size)` in src/audio/analyzer.rs):
one full-length window per processed frame. -/
def spectralFrameInputs (config : AnalysisConfig) (samples : List ℚ) :
    List (List ℚ) :=
  stepBy config.hopSize (slidingWindows config.windowSize samples)

/-- The `min_by` lookup in `track_beats_from_onsets`: the `rms` of the energy
sample whose time is closest to `time` (first minimum kept on ties, matching
`Iterator::min_by`), `0.0` when the profile is empty. -/
def nearestEnergyRms (energyLevels : List EnergyLevel) (time : ℚ) : ℚ :=
  ((energyLevels.foldl
      (fun (best : Option EnergyLevel) e =>
        match best with
        | none => some e
        | some b => if |e.time - time| < |b.time - time| then some e else some b)
      none).map fun e => e.rms).getD 0

/-- The body of the greedy onset filter loop of `track_beats_from_onsets`:
keep an onset iff it is at least `60/max_bpm` after the last kept one. -/
def onsetFilterStep (maxBpm : ℚ) (acc : List ℚ × ℚ) (onsetTime : ℚ) :
    List ℚ × ℚ :=
  if onsetTime - acc.2 ≥ 60 / maxBpm then (acc.1 ++ [onsetTime], onsetTime)
  else acc

/-- The greedy left-to-right onset filter of `track_beats_from_onsets`
(`last_onset_time` starts at `-1.0`). -/
def filteredOnsets (maxBpm : ℚ) (onsets : List ℚ) : List ℚ :=
  (onsets.foldl (onsetFilterStep maxBpm) ([], -1)).1

/-- `AudioAnalyzer::track_beats_from_onsets` from src/audio/analyzer.rs. -/
def trackBeatsFromOnsets (config : AnalysisConfig) (onsets : List ℚ)
    (energyLevels : List EnergyLevel) : List Beat :=
  (filteredOnsets config.maxBpm onsets).enum.map fun p =>
    let localEnergy := nearestEnergyRms energyLevels p.2
    let strength := min (localEnergy * 2) 1
    let beatType := if p.1 % 4 = 0 then BeatType.downbeat else BeatType.beat
    ⟨p.2, strength, beatType, strength, localEnergy⟩

/-- The body of the scan loop of `AudioAnalyzer::track_beats_from_energy`
(src/audio/analyzer.rs): record an energy sample as a beat iff its rms
exceeds `mean + 0.3·(max-mean)`, it is a local maximum over the `[i-2, i+2)`
index window, and it is at least `60/max_bpm` after the last recorded beat. -/
def energyBeatStep (config : AnalysisConfig) (energyLevels : List EnergyLevel)
    (meanEnergy maxEnergy energyThreshold : ℚ)
    (acc : List Beat × ℚ) (p : ℕ × EnergyLevel) : List Beat × ℚ :=
  if p.2.rms > energyThreshold then
    let windowStart := p.1 - 2
    let windowEnd := min (p.1 + 2) energyLevels.length
    let isLocalMax := ((energyLevels.drop windowStart).take
      (windowEnd - windowStart)).all fun e => e.rms ≤ p.2.rms
    if isLocalMax ∧ p.2.time - acc.2 ≥ 60 / config.maxBpm then
      let strength := min ((p.2.rms - meanEnergy) / (maxEnergy - meanEnergy)) 1
      let beatType :=
        if acc.1.length % 4 = 0 then BeatType.downbeat else BeatType.beat
      (acc.1 ++ [⟨p.2.time, strength, beatType, p.2.rms, p.2.rms⟩], p.2.time)
    else acc
  else acc

/-- `AudioAnalyzer::track_beats_from_energy` (continued): the scan itself,
folding `energyBeatStep` over the indexed energy samples with
`last_beat_time` starting at `-1.0`. -/
def trackBeatsFromEnergy (config : AnalysisConfig)
    (energyLevels : List EnergyLevel) : List Beat :=
  if energyLevels.length < 10 then []
  else
    let energies := energyLevels.map fun e => e.rms
    let meanEnergy := energies.sum / (energies.length : ℚ)
    let maxEnergy := energies.foldl max 0
    let energyThreshold := meanEnergy + (maxEnergy - meanEnergy) * (3/10)
    (energyLevels.enum.foldl
      (energyBeatStep config energyLevels meanEnergy maxEnergy energyThreshold)
      ([], -1)).1

/-- `AudioAnalyzer::track_beats` from src/audio/analyzer.rs: the onset path
when onsets exist, the energy fallback when it produced nothing and energy
data exists. -/
def trackBeats (config : AnalysisConfig) (onsets : List ℚ)
    (energyLevels : List EnergyLevel) : List Beat :=
  let beats := if onsets.isEmpty then [] else trackBeatsFromOnsets config onsets energyLevels
  if beats.isEmpty ∧ ¬ energyLevels.isEmpty then trackBeatsFromEnergy config energyLevels
  else beats

/-- Rust `f64::round` (half away from zero) on the millisecond-quantized
interval: `(interval * 1000.0).round() as i64`. -/
def roundToMs (interval : ℚ) : ℤ :=
  if interval * 1000 ≥ 0 then ⌊interval * 1000 + 1/2⌋ else ⌈interval * 1000 - 1/2⌉

/-- Consecutive inter-beat intervals (`beats.windows(2)`). -/
def beatIntervals (beats : List Beat) : List ℚ :=
  (beats.zip beats.tail).map fun p => p.2.time - p.1.time

/-- The fallback `TempoMap {120.0, 0.1, [], default}` constructed (twice) in
`estimate_tempo`. -/
def tempoFallback : TempoMap := ⟨120, 1/10, [], TimeSignature.default⟩

/-- `AudioAnalyzer::estimate_tempo` from src/audio/analyzer.rs. The mode of
the quantized-interval histogram is selected deterministically here (keys in
first-occurrence order, later key winning count ties); the source iterates a
`HashMap` whose tie-break order is unspecified, and no claim depends on it.
`60/interval` on a zero interval is `+∞` in Rust (hence filtered out by the
upper BPM bound) and `0` in Lean (filtered out by the lower bound for the
positive `min_bpm` of any validated configuration). -/
def estimateTempo (config : AnalysisConfig) (beats : List Beat) (duration : ℚ) :
    TempoMap :=
  if beats.length < 2 then tempoFallback
  else
    let intervals := (beatIntervals beats).filter fun interval =>
      config.minBpm ≤ 60 / interval ∧ 60 / interval ≤ config.maxBpm
    if intervals.isEmpty then tempoFallback
    else
      let quantized := intervals.map roundToMs
      let mostCommonIntervalMs :=
        ((quantized.dedup.foldl
          (fun (best : Option (ℤ × ℕ)) k =>
            match best with
            | none => some (k, quantized.count k)
            | some b =>
              if quantized.count k ≥ b.2 then some (k, quantized.count k) else some b)
          none).map Prod.fst).getD 500
      let mostCommonInterval := (mostCommonIntervalMs : ℚ) / 1000
      let globalBpm := 60 / mostCommonInterval
      let matchingIntervals :=
        (intervals.filter fun interval => |interval - mostCommonInterval| < 1/20).length
      let confidence := min ((matchingIntervals : ℚ) / (intervals.length : ℚ)) 1
      ⟨globalBpm, confidence, [], TimeSignature.default⟩

/-- The cut score exactly as the claim words it (weights `0.5·strength +
0.4·local_avg_energy + 0.3·[downbeat] + time_factor`, scaled by
`beat_sync_strength`, threshold `0.4`). Defined from the claim's words — not
from the source — for comparison against `shouldCutAtBeat`; the claim leaves
its `time_factor` unspecified below the interval midpoint where it has not
yet started to grow, so the factor is a parameter here and is instantiated
with `0` at such a point. -/
def claimedCutScore (config : CompositionConfig) (beat : Beat)
    (audioAnalysis : AudioAnalysis) (timeFactor : ℚ) : ℚ :=
  ((1/2) * beat.strength
    + (4/10) * audioAnalysis.averageEnergyInRange (beat.time - 1/2) (beat.time + 1/2)
    + (if beat.beatType = BeatType.downbeat then 3/10 else 0)
    + timeFactor) * config.beatSyncStrength

/-- The relation the amended cut-interval claim asserts between consecutive
cuts `a` then `b` of the beat sweep: the gap is at least `min_cut_interval`,
and every beat strictly between them lies within `max_cut_interval` of `a` —
so a gap exceeds `max_cut_interval` only across a beat-free stretch (the
engine can only cut at beats). Defined from the amended claim, for the C6
theorem about `beatSweep`. -/
def cutRel (config : CompositionConfig) (audioAnalysis : AudioAnalysis)
    (a b : ℚ) : Prop :=
  config.minCutInterval ≤ b - a ∧
  ∀ bt ∈ audioAnalysis.beats, a < bt.time → bt.time < b →
    bt.time - a < config.maxCutInterval

/-- The loop invariant of the beat sweep used to prove the cut-interval
bounds: `bs` is the suffix of beats still to process; the last cut time is
the last element of the cuts list and precedes every remaining beat; the
cuts built so far are `cutRel`-chained; and every beat strictly after the
last cut is either still to process or within `max_cut_interval` of it. -/
def SweepInv (config : CompositionConfig) (audioAnalysis : AudioAnalysis)
    (bs : List Beat) (st : SweepState) : Prop :=
  (∀ bt ∈ bs, st.lastCutTime ≤ bt.time)
  ∧ st.timeline.cuts.getLast? = some st.lastCutTime
  ∧ List.Chain' (cutRel config audioAnalysis) st.timeline.cuts
  ∧ (∀ bt ∈ audioAnalysis.beats, st.lastCutTime < bt.time →
      bt ∈ bs ∨ bt.time - st.lastCutTime < config.maxCutInterval)

-- ======================  THEOREMS  ======================

theorem validate_ok_iff (c : AnalysisConfig) :
    c.validate = .ok () ↔
      (isPowerOfTwo c.windowSize = true ∧ c.hopSize ≤ c.windowSize ∧
        c.minBpm < c.maxBpm ∧ 0 ≤ c.beatSensitivity ∧ c.beatSensitivity ≤ 1) := by
  unfold AnalysisConfig.validate
  split_ifs with h0 h1 h2 h3
  · constructor
    · intro h; exact absurd h (by simp)
    · rintro ⟨hp, -, -, -, -⟩
      rcases h0 with h0 | h0
      · rw [h0] at hp; exact absurd hp (by decide)
      · exact h0 hp
  · constructor
    · intro h; exact absurd h (by simp)
    · rintro ⟨-, h, -, -, -⟩; omega
  · constructor
    · intro h; exact absurd h (by simp)
    · rintro ⟨-, -, h, -, -⟩; exact absurd h (not_lt.mpr h2)
  · rw [not_or, not_not] at h0
    exact ⟨fun _ => ⟨h0.2, le_of_not_gt h1, lt_of_not_ge h2, h3.1, h3.2⟩, fun _ => rfl⟩
  · constructor
    · intro h; exact h.elim
    · rintro ⟨-, -, -, ha, hb⟩; exact h3 ⟨ha, hb⟩

/-- C9 (counterexample): a configuration whose `energy_window_size` is `0` —
violating the claimed `energy_window_size > 0` requirement — is nevertheless
accepted by `AnalysisConfig::validate`, so validation does not reject every
configuration violating that bound. -/
theorem C9_counterexample :
    AnalysisConfig.validate ⟨1024, 512, 60, 200, 7/10, 0, true, true⟩ = .ok () :=
  (validate_ok_iff _).2 ⟨by decide, by norm_num, by norm_num, by norm_num, by norm_num⟩

/-- C9 (amended): `AnalysisConfig::validate` accepts a configuration iff
`window_size` is a power of two, `hop_size ≤ window_size`,
`min_bpm < max_bpm`, and `beat_sensitivity ∈ [0,1]`; `energy_window_size` is
not checked. In particular `window_size = 1000` is rejected with the message
"Window size must be a power of two", and any configuration with
`min_bpm ≥ max_bpm` is rejected with an error. -/
theorem C9_validate :
    (∀ c : AnalysisConfig, c.validate = .ok () ↔
      (isPowerOfTwo c.windowSize = true ∧ c.hopSize ≤ c.windowSize ∧
        c.minBpm < c.maxBpm ∧ 0 ≤ c.beatSensitivity ∧ c.beatSensitivity ≤ 1))
    ∧ AnalysisConfig.validate ⟨1000, 512, 60, 200, 7/10, 1/10, true, true⟩
        = .error "Window size must be a power of two"
    ∧ (∀ c : AnalysisConfig, c.minBpm ≥ c.maxBpm → ∃ msg, c.validate = .error msg) := by
  refine ⟨validate_ok_iff, ?_, ?_⟩
  · have h : ¬ (isPowerOfTwo 1000 = true) := by decide
    simp [AnalysisConfig.validate, h]
  intro c h
  unfold AnalysisConfig.validate
  split_ifs with h0 h1
  · exact ⟨_, rfl⟩
  · exact ⟨_, rfl⟩
  · exact ⟨_, rfl⟩

theorem sortCuts_cuts_perm (t : CompositionTimeline)
    (h : t.cuts.length ≤ t.clipAssignments.length) :
    (t.sortCuts).cuts.Perm t.cuts := by
  have hz : (t.cuts.zip t.clipAssignments).map Prod.fst = t.cuts :=
    List.map_fst_zip _ _ h
  have hperm :
      ((List.insertionSort (fun a b => a.1 ≤ b.1)
        (t.cuts.zip t.clipAssignments)).map Prod.fst).Perm
      ((t.cuts.zip t.clipAssignments).map Prod.fst) :=
    (List.perm_insertionSort _ _).map Prod.fst
  rw [hz] at hperm
  exact hperm

theorem coverageStep_len_mem (duration : ℚ) (numClips segmentsNeeded : ℕ)
    (tl : CompositionTimeline) (i : ℕ)
    (h : tl.cuts.length = tl.clipAssignments.length) :
    ((coverageStep duration numClips segmentsNeeded tl i).cuts.length
      = (coverageStep duration numClips segmentsNeeded tl i).clipAssignments.length)
    ∧ ∀ x ∈ tl.cuts, x ∈ (coverageStep duration numClips segmentsNeeded tl i).cuts := by
  simp only [coverageStep]
  split_ifs with hc
  · exact ⟨h, fun x hx => hx⟩
  · constructor
    · simp [CompositionTimeline.addCut, h]
    · intro x hx
      simp only [CompositionTimeline.addCut]
      exact List.mem_append_left _ hx

theorem coverageFold_len_mem (duration : ℚ) (numClips segmentsNeeded : ℕ) :
    ∀ (idxs : List ℕ) (tl : CompositionTimeline),
      tl.cuts.length = tl.clipAssignments.length →
      ((idxs.foldl (coverageStep duration numClips segmentsNeeded) tl).cuts.length
        = (idxs.foldl (coverageStep duration numClips segmentsNeeded) tl).clipAssignments.length)
      ∧ ∀ x ∈ tl.cuts,
          x ∈ (idxs.foldl (coverageStep duration numClips segmentsNeeded) tl).cuts := by
  intro idxs
  induction idxs with
  | nil => exact fun tl h => ⟨h, fun x hx => hx⟩
  | cons i rest ih =>
    intro tl h
    rw [List.foldl_cons]
    obtain ⟨hs1, hs2⟩ := coverageStep_len_mem duration numClips segmentsNeeded tl i h
    obtain ⟨h1, h2⟩ := ih _ hs1
    exact ⟨h1, fun x hx => h2 x (hs2 x hx)⟩

theorem ensureMinimumCoverage_mem (timeline : CompositionTimeline) (duration : ℚ)
    (numClips : ℕ) (hlen : timeline.cuts.length = timeline.clipAssignments.length)
    (x : ℚ) (hx : x ∈ timeline.cuts) :
    x ∈ (ensureMinimumCoverage timeline duration numClips).cuts := by
  unfold ensureMinimumCoverage
  split_ifs with h
  · obtain ⟨h1, h2⟩ := coverageFold_len_mem duration numClips ((⌈duration / 8⌉).toNat)
      (List.range' 1 ((⌈duration / 8⌉).toNat - 1)) timeline hlen
    exact (sortCuts_cuts_perm _ (le_of_eq h1)).mem_iff.mpr (h2 x hx)
  · exact hx

theorem coverageFold_provenance (duration : ℚ) (numClips segmentsNeeded : ℕ)
    (tl0 : CompositionTimeline) :
    ∀ (idxs : List ℕ) (tl : CompositionTimeline),
      (∀ i ∈ idxs, 1 ≤ i ∧ i < segmentsNeeded) →
      (∀ x ∈ tl0.cuts, x ∈ tl.cuts) →
      (∀ x ∈ tl.cuts, x ∈ tl0.cuts ∨
        ∃ i : ℕ, 1 ≤ i ∧ i < segmentsNeeded
          ∧ x = (i : ℚ) * duration / (segmentsNeeded : ℚ)
          ∧ ∀ c ∈ tl0.cuts, |c - x| ≥ 2) →
      ∀ x ∈ (idxs.foldl (coverageStep duration numClips segmentsNeeded) tl).cuts,
        x ∈ tl0.cuts ∨
        ∃ i : ℕ, 1 ≤ i ∧ i < segmentsNeeded
          ∧ x = (i : ℚ) * duration / (segmentsNeeded : ℚ)
          ∧ ∀ c ∈ tl0.cuts, |c - x| ≥ 2 := by
  intro idxs
  induction idxs with
  | nil => exact fun tl _ _ hprov => hprov
  | cons i rest ih =>
    intro tl hidx hsub hprov
    rw [List.foldl_cons]
    have hi := hidx i (List.mem_cons_self i rest)
    by_cases hc : (tl.cuts.any fun t =>
        |t - ((i : ℚ) * duration / (segmentsNeeded : ℚ))| < 2) = true
    · have hstep : coverageStep duration numClips segmentsNeeded tl i = tl := by
        simp only [coverageStep]
        rw [if_pos hc]
      rw [hstep]
      exact ih tl (fun j hj => hidx j (List.mem_cons_of_mem _ hj)) hsub hprov
    · have hstep : coverageStep duration numClips segmentsNeeded tl i
          = tl.addCut ((i : ℚ) * duration / (segmentsNeeded : ℚ))
              ((i - 1) % numClips + 1) := by
        simp only [coverageStep]
        rw [if_neg hc]
      rw [hstep]
      apply ih
      · exact fun j hj => hidx j (List.mem_cons_of_mem _ hj)
      · intro x hx
        simp only [CompositionTimeline.addCut]
        exact List.mem_append_left _ (hsub x hx)
      · intro x hx
        simp only [CompositionTimeline.addCut] at hx
        rcases List.mem_append.mp hx with hx | hx
        · exact hprov x hx
        · rw [List.mem_singleton] at hx
          subst hx
          right
          refine ⟨i, hi.1, hi.2, rfl, ?_⟩
          intro c hc0
          have hnone : ¬ ∃ y ∈ tl.cuts,
              (decide (|y - ((i : ℚ) * duration / (segmentsNeeded : ℚ))| < 2)) = true := by
            rw [← List.any_eq_true]
            exact hc
          push_neg at hnone
          have hcy := hnone c (hsub c hc0)
          simp only [ne_eq, decide_eq_true_eq] at hcy
          exact not_lt.mp hcy

/-- C4 (counterexample): with one existing cut at 0, duration 20 and 2 clips
(so that clip 2 is unused and the cut count 1 is below `duration/3 ≈ 6.7`,
i.e. the claim's trigger holds), the code injects cuts at `20/3` and `40/3`
— the evenly spaced points `i·duration/⌈duration/8⌉` — not at the claimed
fractional points `0.3·20 = 6`, `0.5·20 = 10`, `0.7·20 = 14`. -/
theorem C4_counterexample :
    ensureMinimumCoverage ⟨[0], [1]⟩ 20 2 = ⟨[0, 20/3, 40/3], [1, 1, 2]⟩
    ∧ ¬ ((20/3 : ℚ) = (3/10) * 20 ∨ (20/3 : ℚ) = (1/2) * 20
        ∨ (20/3 : ℚ) = (7/10) * 20) := by
  refine ⟨?_, by norm_num⟩
  have hseg : ((⌈(20 : ℚ) / 8⌉).toNat) = 3 := by
    have h3 : ⌈(20 : ℚ) / 8⌉ = 3 := by
      rw [Int.ceil_eq_iff]
      norm_num
    rw [h3]
    rfl
  simp only [ensureMinimumCoverage]
  rw [if_pos (by norm_num), hseg]
  norm_num [coverageStep, CompositionTimeline.addCut, CompositionTimeline.sortCuts,
    List.insertionSort, List.orderedInsert, List.range', List.foldl_cons, List.foldl_nil,
    List.zip_cons_cons, List.zip_nil_right, List.any_cons, List.any_nil,
    abs_sub_lt_iff, decide_eq_true_eq]

/-- C4 (amended): the post-pass triggers iff the timeline has fewer than 3
cuts and the duration exceeds 10 s (unused clip IDs are not consulted);
otherwise it is the identity. When it triggers, every cut of the result is
either an original cut or an injected cut at an evenly spaced point
`i·duration/⌈duration/8⌉` for some `1 ≤ i < ⌈duration/8⌉` that lies at least
2 s from every original cut, and the result is the time-sorted timeline. -/
theorem C4_amended :
    (∀ (timeline : CompositionTimeline) (duration : ℚ) (numClips : ℕ),
      ¬ (timeline.cuts.length < 3 ∧ duration > 10) →
      ensureMinimumCoverage timeline duration numClips = timeline)
    ∧ (∀ (timeline : CompositionTimeline) (duration : ℚ) (numClips : ℕ),
      timeline.cuts.length = timeline.clipAssignments.length →
      ∀ t ∈ (ensureMinimumCoverage timeline duration numClips).cuts,
        t ∈ timeline.cuts ∨
        ∃ i : ℕ, 1 ≤ i ∧ i < (⌈duration / 8⌉).toNat
          ∧ t = (i : ℚ) * duration / (((⌈duration / 8⌉).toNat : ℕ) : ℚ)
          ∧ ∀ c ∈ timeline.cuts, |c - t| ≥ 2) := by
  constructor
  · intro tl d n h
    unfold ensureMinimumCoverage
    rw [if_neg h]
  · intro tl d n hlen t ht
    unfold ensureMinimumCoverage at ht
    split_ifs at ht with htrig
    · obtain ⟨hl, -⟩ := coverageFold_len_mem d n ((⌈d / 8⌉).toNat)
        (List.range' 1 ((⌈d / 8⌉).toNat - 1)) tl hlen
      have hmem : t ∈ ((List.range' 1 ((⌈d / 8⌉).toNat - 1)).foldl
          (coverageStep d n ((⌈d / 8⌉).toNat)) tl).cuts :=
        (sortCuts_cuts_perm _ (le_of_eq hl)).mem_iff.mp ht
      refine coverageFold_provenance d n ((⌈d / 8⌉).toNat) tl _ tl ?_
        (fun x hx => hx) (fun x hx => Or.inl hx) t hmem
      intro i hi
      rw [List.mem_range'_1] at hi
      omega
    · exact Or.inl ht

/-- C4 witness: the theorem applied at a 3-cut timeline (identity) and at
the single-cut, 20 s, 2-clip instance. -/
theorem C4_amended_witness :
    ensureMinimumCoverage ⟨[0, 1, 2], [1, 1, 1]⟩ 20 2 = ⟨[0, 1, 2], [1, 1, 1]⟩
    ∧ ∀ t ∈ (ensureMinimumCoverage ⟨[0], [1]⟩ 20 2).cuts,
        t ∈ (⟨[0], [1]⟩ : CompositionTimeline).cuts ∨
        ∃ i : ℕ, 1 ≤ i ∧ i < (⌈(20 : ℚ) / 8⌉).toNat
          ∧ t = (i : ℚ) * 20 / (((⌈(20 : ℚ) / 8⌉).toNat : ℕ) : ℚ)
          ∧ ∀ c ∈ (⟨[0], [1]⟩ : CompositionTimeline).cuts, |c - t| ≥ 2 :=
  ⟨C4_amended.1 _ _ _ (by norm_num), C4_amended.2 _ _ _ rfl⟩

/-- C2: the adaptive peak-picking loop of `detect_onsets` never declares an
onset, whatever the spectral-flux curve: its guard compares `frame_idx`
against `spectral_flux.len() - 3` where `spectral_flux` has just grown to
length `frame_idx + 1`, so the guard is always false and the claimed
threshold / local-max / mean conditions never fire on any input. -/
theorem C2_adaptive_never_fires :
    ∀ (sensitivity : ℚ) (hopSize sampleRate : ℕ) (flux : List ℚ),
      adaptiveOnsets sensitivity hopSize sampleRate flux = [] := by
  intro s hs sr flux
  unfold adaptiveOnsets
  suffices hgen : ∀ (fl pre : List ℚ),
      (fl.foldl (adaptiveOnsetStep s hs sr) (pre, [])).2 = [] from hgen flux []
  intro fl
  induction fl with
  | nil => intro pre; rfl
  | cons x xs ih =>
    intro pre
    rw [List.foldl_cons]
    have hcond : ¬ (pre.length > 3 ∧ pre.length < (pre ++ [x]).length - 3) := by
      simp only [List.length_append, List.length_singleton]
      omega
    have hstep : adaptiveOnsetStep s hs sr (pre, []) x = (pre ++ [x], []) := by
      simp only [adaptiveOnsetStep]
      rw [if_neg hcond]
    rw [hstep]
    exact ih (pre ++ [x])

/-- C8: the framing stage of `detect_onsets` produces no frame at all when
the mono buffer is shorter than the window size — `slice::windows` yields
only full-length windows, so the zero-padding branch in the source is dead
and no zero-padded tail frame ever exists. -/
theorem C8_short_input_no_frames :
    ∀ (config : AnalysisConfig) (samples : List ℚ),
      samples.length < config.windowSize → spectralFrameInputs config samples = [] := by
  intro c samples h
  unfold spectralFrameInputs slidingWindows
  have h0 : samples.length + 1 - c.windowSize = 0 := by omega
  rw [h0]
  simp [stepBy]

/-- C8 witness: 100 samples against the default 1024-sample window yield an
empty frame sequence. -/
theorem C8_short_input_no_frames_witness :
    spectralFrameInputs ⟨1024, 512, 60, 200, 7/10, 1/10, true, true⟩
      (List.replicate 100 0) = [] :=
  C8_short_input_no_frames _ _ (by simp)

/-- C10: `estimate_tempo` returns exactly the fallback
`{120 BPM, confidence 0.1}` when fewer than 2 beats exist, and likewise when
no inter-beat interval's implied BPM lies within `[min_bpm, max_bpm]`. -/
theorem C10_tempo_fallback :
    (∀ (config : AnalysisConfig) (beats : List Beat) (duration : ℚ),
      beats.length < 2 → estimateTempo config beats duration = tempoFallback)
    ∧ (∀ (config : AnalysisConfig) (beats : List Beat) (duration : ℚ),
      (∀ interval ∈ beatIntervals beats,
        ¬ (config.minBpm ≤ 60 / interval ∧ 60 / interval ≤ config.maxBpm)) →
      estimateTempo config beats duration = tempoFallback) := by
  constructor
  · intro c beats d h
    unfold estimateTempo
    rw [if_pos h]
  · intro c beats d h
    unfold estimateTempo
    by_cases h2 : beats.length < 2
    · rw [if_pos h2]
    · rw [if_neg h2]
      have hfilter : ((beatIntervals beats).filter fun interval =>
          decide (c.minBpm ≤ 60 / interval ∧ 60 / interval ≤ c.maxBpm)) = [] := by
        rw [List.filter_eq_nil_iff]
        intro a ha
        simpa using h a ha
      simp only [hfilter, List.isEmpty_nil, if_true]

/-- C10 witness: the theorem applied to an empty beat list and to a two-beat
list whose single 10 s interval implies 6 BPM, outside `[60, 200]`. -/
theorem C10_tempo_fallback_witness :
    estimateTempo ⟨1024, 512, 60, 200, 7/10, 1/10, true, true⟩ [] 5 = tempoFallback
    ∧ estimateTempo ⟨1024, 512, 60, 200, 7/10, 1/10, true, true⟩
        [⟨0, 1, BeatType.downbeat, 1, 1⟩, ⟨10, 1, BeatType.beat, 1, 1⟩] 5 = tempoFallback :=
  ⟨C10_tempo_fallback.1 _ _ _ (by simp),
   C10_tempo_fallback.2 _ _ _ (by
     intro interval hint
     simp only [beatIntervals, List.tail_cons, List.zip_cons_cons, List.zip_nil_right,
       List.map_cons, List.map_nil, List.mem_singleton] at hint
     subst hint
     norm_num)⟩

/-- C3 (counterexample): with a nonempty clip pool (2 clips) and an empty
beat sequence, `generate_timeline` succeeds — returning the timeline holding
only the initial forced cut — instead of reporting an engine error. -/
theorem C3_counterexample :
    generateTimeline ⟨8/10, true, 1, 8, true, 1/10⟩ ⟨[], [], 5⟩ 2 = .ok ⟨[0], [1]⟩ := by
  have hsweep : (beatSweep ⟨8/10, true, 1, 8, true, 1/10⟩ ⟨[], [], 5⟩ 2).timeline
      = ⟨[0], [1]⟩ := rfl
  unfold generateTimeline
  rw [if_neg (by norm_num), hsweep]
  unfold ensureMinimumCoverage
  rw [if_neg (by norm_num)]

/-- C3 (amended): an empty clip pool yields the engine error
"No video clips available", but an empty beat sequence does not error: the
engine still returns an `Ok` timeline containing the initial forced cut at
time 0. -/
theorem C3_amended :
    (∀ (config : CompositionConfig) (audioAnalysis : AudioAnalysis),
      generateTimeline config audioAnalysis 0 = .error "No video clips available")
    ∧ (∀ (config : CompositionConfig) (audioAnalysis : AudioAnalysis) (numClips : ℕ),
      numClips ≠ 0 → audioAnalysis.beats = [] →
      ∃ tl, generateTimeline config audioAnalysis numClips = .ok tl
        ∧ (0 : ℚ) ∈ tl.cuts) := by
  constructor
  · intro config a
    unfold generateTimeline
    rw [if_pos rfl]
  · intro config a n hn hb
    have hsweep : (beatSweep config a n).timeline = ⟨[0], [1]⟩ := by
      unfold beatSweep
      rw [hb]
      rfl
    have hrun : generateTimeline config a n
        = .ok (ensureMinimumCoverage ⟨[0], [1]⟩ a.duration n) := by
      unfold generateTimeline
      rw [if_neg hn, hsweep]
    exact ⟨_, hrun, ensureMinimumCoverage_mem _ _ _ rfl 0 (by simp)⟩

/-- C3 witness: the theorem applied at an empty pool and at a 3-clip pool
with no beats and a 20 s duration (which also exercises the coverage
injection branch). -/
theorem C3_amended_witness :
    generateTimeline ⟨8/10, true, 1, 8, true, 1/10⟩ ⟨[], [], 20⟩ 0
        = .error "No video clips available"
    ∧ ∃ tl, generateTimeline ⟨8/10, true, 1, 8, true, 1/10⟩ ⟨[], [], 20⟩ 3 = .ok tl
        ∧ (0 : ℚ) ∈ tl.cuts :=
  ⟨C3_amended.1 _ _, C3_amended.2 _ _ 3 (by norm_num) rfl⟩

/-- C1 (counterexample): with `beat_sync_strength = 0.6`,
`min_cut_interval = 1`, `max_cut_interval = 5`, a full-strength downbeat, no
energy data, and `time_since_last_cut = 1` (inside `[min, max)` and at the
interval's left end, where the claimed time factor has not yet started to
grow, hence 0), the claim's formula scores `(0.5 + 0.3)·0.6 = 0.48 ≥ 0.4`
and predicts a cut, but `should_cut_at_beat` scores
`(0.4 + 0.2)·0.6 = 0.36 < 0.6` and does not cut. -/
theorem C1_counterexample :
    ((1 : ℚ) ≥ (⟨6/10, true, 1, 5, true, 1/10⟩ : CompositionConfig).minCutInterval)
    ∧ ((1 : ℚ) < (⟨6/10, true, 1, 5, true, 1/10⟩ : CompositionConfig).maxCutInterval)
    ∧ claimedCutScore ⟨6/10, true, 1, 5, true, 1/10⟩ ⟨1, 1, BeatType.downbeat, 1, 1⟩
        ⟨[], [], 10⟩ 0 ≥ 4/10
    ∧ shouldCutAtBeat ⟨6/10, true, 1, 5, true, 1/10⟩ ⟨1, 1, BeatType.downbeat, 1, 1⟩
        1 ⟨[], [], 10⟩ = false := by
  refine ⟨by norm_num, by norm_num, ?_, ?_⟩
  · norm_num [claimedCutScore, AudioAnalysis.averageEnergyInRange]
  · norm_num [shouldCutAtBeat, AudioAnalysis.averageEnergyInRange, min_def]

/-- C1 (amended): for `min_cut_interval ≤ time_since_last_cut <
max_cut_interval`, `should_cut_at_beat` cuts iff the weighted sum
`0.4·strength + 0.3·local_avg_energy(beat.time ± 0.5 s) + 0.2·[downbeat]
+ 0.1·time_factor`, with `time_factor = min((t_slc - min)/(max - min), 1)`,
multiplied by `beat_sync_strength`, is `≥ 0.6`. -/
theorem C1_amended (config : CompositionConfig) (beat : Beat)
    (timeSinceLastCut : ℚ) (audioAnalysis : AudioAnalysis)
    (hmin : config.minCutInterval ≤ timeSinceLastCut)
    (hmax : timeSinceLastCut < config.maxCutInterval) :
    shouldCutAtBeat config beat timeSinceLastCut audioAnalysis = true ↔
      ((4/10) * beat.strength
        + (3/10) * audioAnalysis.averageEnergyInRange (beat.time - 1/2) (beat.time + 1/2)
        + (if beat.beatType = BeatType.downbeat then 2/10 else 0)
        + (1/10) * min ((timeSinceLastCut - config.minCutInterval) /
            (config.maxCutInterval - config.minCutInterval)) 1)
        * config.beatSyncStrength ≥ 6/10 := by
  simp only [shouldCutAtBeat]
  rw [if_neg (not_le.mpr hmax), if_neg (not_lt.mpr hmin)]
  simp only [decide_eq_true_eq]
  set s := beat.strength with hs
  set E := audioAnalysis.averageEnergyInRange (beat.time - 1/2) (beat.time + 1/2) with hE
  set tf := min ((timeSinceLastCut - config.minCutInterval) /
      (config.maxCutInterval - config.minCutInterval)) 1 with htf
  set bss := config.beatSyncStrength with hbss
  by_cases hb : beat.beatType = BeatType.downbeat
  · rw [if_pos hb, if_pos hb]
    have heq : (0 + s * (4/10) + E * (3/10) + 2/10 + tf * (1/10)) * bss
        = ((4/10) * s + (3/10) * E + 2/10 + (1/10) * tf) * bss := by ring
    rw [heq]
  · rw [if_neg hb, if_neg hb]
    have heq : (0 + s * (4/10) + E * (3/10) + tf * (1/10)) * bss
        = ((4/10) * s + (3/10) * E + 0 + (1/10) * tf) * bss := by ring
    rw [heq]

/-- C1 witness: the theorem applied at a concrete in-window beat. -/
theorem C1_amended_witness :
    shouldCutAtBeat ⟨1, true, 1, 5, true, 1/10⟩ ⟨2, 1, BeatType.downbeat, 1, 1⟩
        2 ⟨[], [], 10⟩ = true ↔
      ((4/10) * (⟨2, 1, BeatType.downbeat, 1, 1⟩ : Beat).strength
        + (3/10) * AudioAnalysis.averageEnergyInRange ⟨[], [], 10⟩
            ((⟨2, 1, BeatType.downbeat, 1, 1⟩ : Beat).time - 1/2)
            ((⟨2, 1, BeatType.downbeat, 1, 1⟩ : Beat).time + 1/2)
        + (if (⟨2, 1, BeatType.downbeat, 1, 1⟩ : Beat).beatType = BeatType.downbeat
            then 2/10 else 0)
        + (1/10) * min ((2 - (⟨1, true, 1, 5, true, 1/10⟩ : CompositionConfig).minCutInterval) /
            ((⟨1, true, 1, 5, true, 1/10⟩ : CompositionConfig).maxCutInterval
              - (⟨1, true, 1, 5, true, 1/10⟩ : CompositionConfig).minCutInterval)) 1)
        * (⟨1, true, 1, 5, true, 1/10⟩ : CompositionConfig).beatSyncStrength ≥ 6/10 :=
  C1_amended _ _ _ _ (by norm_num) (by norm_num)

/-- C5 (counterexample): a cut decided during the beat sweep where the clip
assigned is not the round-robin successor: with 3 clips and a high-energy
beat (local average energy 1 > 0.7), the sweep cuts at the beat and assigns
clip 3, while the round-robin successor of clip 1 is `1 % 3 + 1 = 2`. -/
theorem C5_counterexample :
    (beatSweep ⟨1, true, 1, 5, true, 1/10⟩
        ⟨[⟨2, 1, BeatType.downbeat, 1, 1⟩], [⟨2, 1, 1, 1000, 1/10⟩], 10⟩ 3).timeline
      = ⟨[0, 2], [1, 3]⟩
    ∧ (3 : ℕ) ≠ 1 % 3 + 1 := by
  refine ⟨?_, by norm_num⟩
  norm_num [beatSweep, sweepStep, shouldCutAtBeat, selectNextClip, rangeCycleNth,
    AudioAnalysis.averageEnergyInRange, CompositionTimeline.new, CompositionTimeline.addCut,
    min_def, List.filter_cons, List.filter_nil, decide_eq_true_eq]

/-- C5 (amended): the clip assigned on a cut is the round-robin successor
`current % numClips + 1` whenever neither energy override applies, i.e. the
local average energy over `beat.time ± 1 s` is neither `> 0.7` with more
than 2 clips nor `< 0.3` with more than 1 clip; otherwise an energy-biased
clip from the later (resp. earlier) half of the pool is selected instead. -/
theorem C5_amended (currentClip numClips : ℕ) (beat : Beat)
    (audioAnalysis : AudioAnalysis)
    (hhi : ¬ (audioAnalysis.averageEnergyInRange (beat.time - 1) (beat.time + 1) > 7/10
      ∧ numClips > 2))
    (hlo : ¬ (audioAnalysis.averageEnergyInRange (beat.time - 1) (beat.time + 1) < 3/10
      ∧ numClips > 1)) :
    selectNextClip currentClip numClips beat audioAnalysis
      = currentClip % numClips + 1 := by
  simp only [selectNextClip]
  rw [if_neg hhi, if_neg hlo]

/-- C5 witness: the theorem applied with mid-range energy (average 0.5). -/
theorem C5_amended_witness :
    selectNextClip 1 3 ⟨0, 1, BeatType.downbeat, 1, 1⟩
      ⟨[], [⟨0, 1/2, 1, 500, 1/10⟩], 10⟩ = 1 % 3 + 1 :=
  C5_amended 1 3 _ _
    (by norm_num [AudioAnalysis.averageEnergyInRange, List.filter_cons, List.filter_nil,
      decide_eq_true_eq])
    (by norm_num [AudioAnalysis.averageEnergyInRange, List.filter_cons, List.filter_nil,
      decide_eq_true_eq])

/-- C9 witness: the theorem applied at concrete configurations. -/
theorem C9_validate_witness :
    AnalysisConfig.validate ⟨1024, 512, 60, 200, 7/10, 1/10, true, true⟩ = .ok ()
    ∧ ∃ msg, AnalysisConfig.validate ⟨1024, 512, 200, 60, 7/10, 1/10, true, true⟩
        = .error msg :=
  ⟨(C9_validate.1 _).2 ⟨by decide, by norm_num, by norm_num, by norm_num, by norm_num⟩,
   C9_validate.2.2 _ (by norm_num)⟩

theorem onsetFilterFold_chain (maxBpm : ℚ) :
    ∀ (os : List ℚ) (acc : List ℚ × ℚ),
      List.Chain' (fun a b => 60 / maxBpm ≤ b - a) acc.1 →
      (acc.1 = [] ∨ acc.1.getLast? = some acc.2) →
      List.Chain' (fun a b => 60 / maxBpm ≤ b - a)
        ((os.foldl (onsetFilterStep maxBpm) acc).1) := by
  intro os
  induction os with
  | nil => exact fun acc h _ => h
  | cons t rest ih =>
    intro acc hchain hlast
    rw [List.foldl_cons]
    by_cases hc : t - acc.2 ≥ 60 / maxBpm
    · have hstep : onsetFilterStep maxBpm acc t = (acc.1 ++ [t], t) := by
        unfold onsetFilterStep
        rw [if_pos hc]
      rw [hstep]
      apply ih
      · rw [List.chain'_append]
        refine ⟨hchain, List.chain'_singleton _, ?_⟩
        intro x hx y hy
        rcases hlast with h0 | h0
        · rw [h0] at hx
          cases hx
        · rw [h0, Option.mem_some_iff] at hx
          simp only [List.head?_cons, Option.mem_some_iff] at hy
          subst hx
          subst hy
          exact hc
      · right
        exact List.getLast?_concat _
    · have hstep : onsetFilterStep maxBpm acc t = acc := by
        unfold onsetFilterStep
        rw [if_neg hc]
      rw [hstep]
      exact ih acc hchain hlast

theorem filteredOnsets_chain (maxBpm : ℚ) (onsets : List ℚ) :
    List.Chain' (fun a b => 60 / maxBpm ≤ b - a) (filteredOnsets maxBpm onsets) :=
  onsetFilterFold_chain maxBpm onsets ([], -1) List.chain'_nil (Or.inl rfl)

theorem trackBeatsFromOnsets_chain (config : AnalysisConfig) (onsets : List ℚ)
    (energyLevels : List EnergyLevel) :
    List.Chain' (fun a b => 60 / config.maxBpm ≤ b.time - a.time)
      (trackBeatsFromOnsets config onsets energyLevels) := by
  unfold trackBeatsFromOnsets
  rw [List.chain'_map]
  have base := filteredOnsets_chain config.maxBpm onsets
  have hsnd : (filteredOnsets config.maxBpm onsets).enum.map Prod.snd
      = filteredOnsets config.maxBpm onsets := List.enum_map_snd _
  rw [← hsnd, List.chain'_map] at base
  exact base

theorem energyBeatStep_inv (config : AnalysisConfig) (energyLevels : List EnergyLevel)
    (meanEnergy maxEnergy energyThreshold : ℚ) (acc : List Beat × ℚ)
    (p : ℕ × EnergyLevel)
    (hchain : List.Chain' (fun a b => 60 / config.maxBpm ≤ b.time - a.time) acc.1)
    (hlast : acc.1 = []
      ∨ ∃ lastBeat, acc.1.getLast? = some lastBeat ∧ lastBeat.time = acc.2) :
    List.Chain' (fun a b => 60 / config.maxBpm ≤ b.time - a.time)
        (energyBeatStep config energyLevels meanEnergy maxEnergy energyThreshold acc p).1
    ∧ ((energyBeatStep config energyLevels meanEnergy maxEnergy energyThreshold acc p).1 = []
      ∨ ∃ lastBeat,
        (energyBeatStep config energyLevels meanEnergy maxEnergy energyThreshold
          acc p).1.getLast? = some lastBeat
        ∧ lastBeat.time
          = (energyBeatStep config energyLevels meanEnergy maxEnergy energyThreshold
            acc p).2) := by
  have happend : ∀ nb : Beat, nb.time = p.2.time →
      p.2.time - acc.2 ≥ 60 / config.maxBpm →
      List.Chain' (fun a b => 60 / config.maxBpm ≤ b.time - a.time) (acc.1 ++ [nb])
      ∧ (acc.1 ++ [nb] = [] ∨ ∃ lastBeat, (acc.1 ++ [nb]).getLast? = some lastBeat
          ∧ lastBeat.time = p.2.time) := by
    intro nb hnb hgap
    constructor
    · rw [List.chain'_append]
      refine ⟨hchain, List.chain'_singleton _, ?_⟩
      intro x hx y hy
      rcases hlast with h0 | h0
      · rw [h0] at hx
        cases hx
      · obtain ⟨lb, hlb, hlbt⟩ := h0
        rw [hlb, Option.mem_some_iff] at hx
        simp only [List.head?_cons, Option.mem_some_iff] at hy
        subst hx
        subst hy
        rw [hnb, hlbt]
        exact hgap
    · right
      exact ⟨nb, List.getLast?_concat _, hnb⟩
  simp only [energyBeatStep]
  split_ifs with h1 h2 hb
  · exact happend _ rfl h2.2
  · exact happend _ rfl h2.2
  · exact ⟨hchain, hlast⟩
  · exact ⟨hchain, hlast⟩

theorem energyBeatFold_chain (config : AnalysisConfig) (energyLevels : List EnergyLevel)
    (meanEnergy maxEnergy energyThreshold : ℚ) :
    ∀ (ps : List (ℕ × EnergyLevel)) (acc : List Beat × ℚ),
      List.Chain' (fun a b => 60 / config.maxBpm ≤ b.time - a.time) acc.1 →
      (acc.1 = []
        ∨ ∃ lastBeat, acc.1.getLast? = some lastBeat ∧ lastBeat.time = acc.2) →
      List.Chain' (fun a b => 60 / config.maxBpm ≤ b.time - a.time)
        ((ps.foldl (energyBeatStep config energyLevels meanEnergy maxEnergy energyThreshold)
          acc).1) := by
  intro ps
  induction ps with
  | nil => exact fun acc h _ => h
  | cons p rest ih =>
    intro acc hchain hlast
    rw [List.foldl_cons]
    obtain ⟨h1, h2⟩ := energyBeatStep_inv config energyLevels meanEnergy maxEnergy
      energyThreshold acc p hchain hlast
    exact ih _ h1 h2

theorem trackBeatsFromEnergy_chain (config : AnalysisConfig)
    (energyLevels : List EnergyLevel) :
    List.Chain' (fun a b => 60 / config.maxBpm ≤ b.time - a.time)
      (trackBeatsFromEnergy config energyLevels) := by
  unfold trackBeatsFromEnergy
  split_ifs with h
  · exact List.chain'_nil
  · exact energyBeatFold_chain config energyLevels _ _ _ _ _ List.chain'_nil (Or.inl rfl)

/-- C7: every beat sequence the Beat Tracker produces — whether by the
onset-filtering primary path or the energy-peak fallback — has every
adjacent pair of beats at least `60/max_bpm` apart:
`beat[i+1].time - beat[i].time ≥ 60/max_bpm`. -/
theorem C7_beat_spacing (config : AnalysisConfig) (onsets : List ℚ)
    (energyLevels : List EnergyLevel) :
    List.Chain' (fun a b => 60 / config.maxBpm ≤ b.time - a.time)
      (trackBeats config onsets energyLevels) := by
  simp only [trackBeats]
  split_ifs <;>
    first
      | exact List.chain'_nil
      | exact trackBeatsFromEnergy_chain config energyLevels
      | exact trackBeatsFromOnsets_chain config onsets energyLevels

theorem shouldCut_true_min_gap (config : CompositionConfig) (beat : Beat)
    (timeSinceLastCut : ℚ) (audioAnalysis : AudioAnalysis)
    (hmm : config.minCutInterval ≤ config.maxCutInterval)
    (h : shouldCutAtBeat config beat timeSinceLastCut audioAnalysis = true) :
    config.minCutInterval ≤ timeSinceLastCut := by
  by_cases h1 : timeSinceLastCut ≥ config.maxCutInterval
  · exact le_trans hmm h1
  · by_cases h2 : timeSinceLastCut < config.minCutInterval
    · exfalso
      unfold shouldCutAtBeat at h
      rw [if_neg h1, if_pos h2] at h
      cases h
    · exact not_lt.mp h2

theorem shouldCut_false_max_gap (config : CompositionConfig) (beat : Beat)
    (timeSinceLastCut : ℚ) (audioAnalysis : AudioAnalysis)
    (h : shouldCutAtBeat config beat timeSinceLastCut audioAnalysis = false) :
    timeSinceLastCut < config.maxCutInterval := by
  by_cases h1 : timeSinceLastCut ≥ config.maxCutInterval
  · exfalso
    unfold shouldCutAtBeat at h
    rw [if_pos h1] at h
    cases h
  · exact not_le.mp h1

theorem sweepStep_inv (config : CompositionConfig) (audioAnalysis : AudioAnalysis)
    (numClips : ℕ) (hmm : config.minCutInterval ≤ config.maxCutInterval)
    (b0 : Beat) (rest : List Beat) (st : SweepState)
    (hpw : ∀ bt ∈ rest, b0.time ≤ bt.time)
    (hinv : SweepInv config audioAnalysis (b0 :: rest) st) :
    SweepInv config audioAnalysis rest (sweepStep config audioAnalysis numClips st b0) := by
  obtain ⟨hle, hlastEq, hchain, hfuture⟩ := hinv
  have hle0 : st.lastCutTime ≤ b0.time := hle b0 (List.mem_cons_self _ _)
  simp only [sweepStep]
  by_cases hcut : shouldCutAtBeat config b0 (b0.time - st.lastCutTime) audioAnalysis = true
  · rw [if_pos hcut]
    refine ⟨hpw, ?_, ?_, ?_⟩
    · exact List.getLast?_concat _
    · simp only [CompositionTimeline.addCut]
      rw [List.chain'_append]
      refine ⟨hchain, List.chain'_singleton _, ?_⟩
      intro x hx y hy
      rw [hlastEq, Option.mem_some_iff] at hx
      simp only [List.head?_cons, Option.mem_some_iff] at hy
      subst hx
      subst hy
      constructor
      · exact shouldCut_true_min_gap config b0 _ audioAnalysis hmm hcut
      · intro bt hbt h1 h2
        rcases hfuture bt hbt h1 with hmem | hlt
        · rcases List.mem_cons.mp hmem with rfl | hmem
          · exact absurd h2 (lt_irrefl _)
          · exact absurd h2 (not_lt.mpr (hpw bt hmem))
        · exact hlt
    · intro bt hbt hgt
      have h0 : st.lastCutTime < bt.time := lt_of_le_of_lt hle0 hgt
      rcases hfuture bt hbt h0 with hmem | hlt
      · rcases List.mem_cons.mp hmem with rfl | hmem
        · exact absurd hgt (lt_irrefl _)
        · exact Or.inl hmem
      · right
        linarith
  · rw [if_neg hcut]
    have hfalse : shouldCutAtBeat config b0 (b0.time - st.lastCutTime) audioAnalysis
        = false := Bool.eq_false_iff.mpr hcut
    have hltmax : b0.time - st.lastCutTime < config.maxCutInterval :=
      shouldCut_false_max_gap config b0 _ audioAnalysis hfalse
    refine ⟨fun bt hbt => hle bt (List.mem_cons_of_mem _ hbt), hlastEq, hchain, ?_⟩
    intro bt hbt hgt
    rcases hfuture bt hbt hgt with hmem | hlt
    · rcases List.mem_cons.mp hmem with rfl | hmem
      · exact Or.inr hltmax
      · exact Or.inl hmem
    · exact Or.inr hlt

theorem sweepFold_inv (config : CompositionConfig) (audioAnalysis : AudioAnalysis)
    (numClips : ℕ) (hmm : config.minCutInterval ≤ config.maxCutInterval) :
    ∀ (bs : List Beat) (st : SweepState),
      List.Pairwise (fun x y : Beat => x.time ≤ y.time) bs →
      SweepInv config audioAnalysis bs st →
      SweepInv config audioAnalysis []
        (bs.foldl (sweepStep config audioAnalysis numClips) st) := by
  intro bs
  induction bs with
  | nil => exact fun st _ h => h
  | cons b0 rest ih =>
    intro st hpw hinv
    rw [List.foldl_cons]
    rw [List.pairwise_cons] at hpw
    exact ih _ hpw.2 (sweepStep_inv config audioAnalysis numClips hmm b0 rest st hpw.1 hinv)

/-- C6 (counterexample): with `min_cut_interval = 1`, `max_cut_interval = 5`
and a single beat at t = 100, the beat sweep force-cuts at that beat: the
resulting gap between consecutive cuts is `100 - 0 = 100 > 5`, violating the
claimed upper bound `max_cut_interval` (no earlier beat existed at which a
cut could have been forced). -/
theorem C6_counterexample :
    (beatSweep ⟨1, true, 1, 5, true, 1/10⟩
        ⟨[⟨100, 1, BeatType.downbeat, 1, 1⟩], [], 10⟩ 2).timeline.cuts = [0, 100]
    ∧ ¬ ((100 : ℚ) - 0
        ≤ (⟨1, true, 1, 5, true, 1/10⟩ : CompositionConfig).maxCutInterval) := by
  refine ⟨?_, by norm_num⟩
  norm_num [beatSweep, sweepStep, shouldCutAtBeat, selectNextClip, rangeCycleNth,
    AudioAnalysis.averageEnergyInRange, CompositionTimeline.new, CompositionTimeline.addCut,
    min_def, decide_eq_true_eq]

/-- C6 (amended): for a validated configuration
(`min_cut_interval ≤ max_cut_interval`) and a time-sorted, nonnegative beat
sequence, every pair of consecutive cuts `a, b` of the beat sweep (before
the distribution fixup) satisfies `b - a ≥ min_cut_interval` — including the
gap after the initial forced cut at t = 0 — and every beat strictly between
the two cuts lies within `max_cut_interval` of `a`; hence a gap can exceed
`max_cut_interval` only across a beat-free stretch, not at the claimed
unconditional bound. -/
theorem C6_amended (config : CompositionConfig) (audioAnalysis : AudioAnalysis)
    (numClips : ℕ)
    (hmm : config.minCutInterval ≤ config.maxCutInterval)
    (hsorted : List.Pairwise (fun x y : Beat => x.time ≤ y.time) audioAnalysis.beats)
    (hnonneg : ∀ bt ∈ audioAnalysis.beats, 0 ≤ bt.time) :
    List.Chain' (cutRel config audioAnalysis)
      (beatSweep config audioAnalysis numClips).timeline.cuts := by
  have hinit : SweepInv config audioAnalysis audioAnalysis.beats
      ⟨CompositionTimeline.new.addCut 0 1, 1, 0⟩ := by
    refine ⟨fun bt hbt => hnonneg bt hbt, rfl, List.chain'_singleton _, ?_⟩
    exact fun bt hbt _ => Or.inl hbt
  have hfold := sweepFold_inv config audioAnalysis numClips hmm
    audioAnalysis.beats _ hsorted hinit
  exact hfold.2.2.1

/-- C6 witness: the theorem applied at a concrete sorted beat list. -/
theorem C6_amended_witness :
    List.Chain' (cutRel ⟨8/10, true, 1, 8, true, 1/10⟩
        ⟨[⟨2, 1, BeatType.downbeat, 1, 1⟩], [], 5⟩)
      (beatSweep ⟨8/10, true, 1, 8, true, 1/10⟩
        ⟨[⟨2, 1, BeatType.downbeat, 1, 1⟩], [], 5⟩ 2).timeline.cuts :=
  C6_amended _ _ 2 (by norm_num) (by simp) (by simp)

end Retro
